import Mathlib

/-!
# Verification of the JobSniffr resume-parsing core

Shallow embedding of the algorithmic core of `resumeparser-app/app.py`:
the `ResumeParser` extractors (`extract_contact_info`, `extract_skills`,
`extract_experience`, `extract_education`, `extract_keywords`,
`parse_resume`) and the `JobFieldRecommender` scorer
(`calculate_match_score`, `get_job_recommendations`, `get_job_search_url`).

Conventions of the embedding:
* Python strings are Lean `String`s; character-level work is done on
  `String.data` (`List Char`).  All inputs of interest are ASCII, and the
  Python string methods (`lower`, `strip`, `title`, `split`) are embedded
  with their ASCII behaviour.
* Python float arithmetic on scores is embedded as exact rational (`ℚ`)
  arithmetic; `round` is embedded as round-half-to-even (`pyRound`), the
  semantics of Python 3 `round`.
* The regular expressions used by the parser are embedded with a small
  backtracking matcher (`matchFuel`) over a transliteration of each
  pattern (`RItem` lists).  The matcher implements Python `re.search`
  semantics: leftmost match position, and at a given position greedy
  quantifiers / left-to-right alternation with backtracking.  The fuel
  argument only bounds the structural recursion; every item consumes at
  most two fuel steps, so `2 * items.length + 2` fuel is exact.
* `dict`s are embedded as association lists in insertion order (Python
  3.7+ dicts iterate in insertion order); `Counter.most_common(n)` is a
  stable descending sort on counts followed by `take n`, matching
  the documented CPython behaviour (ties broken by first insertion).
* Exceptions at the `parse_resume` boundary are embedded with `Except`.
-/

/-! ## Python string primitives -/

/-- Python whitespace for `str.strip` / `\s`: space, tab, newline, CR, FF, VT. -/
def isPySpace (c : Char) : Bool :=
  c = ' ' || c = '\t' || c = '\n' || c = '\r' || c = '\x0b' || c = '\x0c'

/-- Python `str.strip()` on a character list. -/
def pyStrip (s : List Char) : List Char :=
  ((s.dropWhile isPySpace).reverse.dropWhile isPySpace).reverse

/-- Python `str.lower()` (ASCII). -/
def pyLowerS (s : String) : String :=
  ⟨s.data.map Char.toLower⟩

/-- Python split of `text` on the newline character: split at every newline,
keeping empty pieces. -/
def splitNL : List Char → List (List Char)
  | [] => [[]]
  | c :: cs =>
    if c = '\n' then [] :: splitNL cs
    else
      match splitNL cs with
      | [] => [[c]]
      | h :: t => (c :: h) :: t

/-- Helper for `splitWS`: accumulate the current word (reversed). -/
def splitWSGo : List Char → List Char → List (List Char)
  | cur, [] => if cur = [] then [] else [cur.reverse]
  | cur, c :: cs =>
    if isPySpace c then
      if cur = [] then splitWSGo [] cs else cur.reverse :: splitWSGo [] cs
    else splitWSGo (c :: cur) cs

/-- Python `str.split()` (no argument): maximal non-whitespace runs, no empties. -/
def splitWS (s : List Char) : List (List Char) :=
  splitWSGo [] s

/-- Python substring test `needle in hay` on character lists. -/
def strIn (needle hay : List Char) : Bool :=
  (List.range (hay.length + 1)).any fun i => needle.isPrefixOf (hay.drop i)

/-- Python `str.title()` (ASCII): a letter is uppercased when the previous
character is not a letter, lowercased otherwise.  The Boolean argument
records whether the previous character was a letter. -/
def pyTitleGo : Bool → List Char → List Char
  | _, [] => []
  | prevCased, c :: cs =>
    (if c.isAlpha then (if prevCased then c.toLower else c.toUpper) else c)
      :: pyTitleGo c.isAlpha cs

/-- Python `str.title()` (ASCII). -/
def pyTitle (s : List Char) : List Char :=
  pyTitleGo false s

/-- Python regex `\w` (ASCII range): letters, digits, underscore. -/
def isWordChar (c : Char) : Bool :=
  c.isAlphanum || c = '_'

/-! ## Regular-expression matcher

Each Python pattern used by `app.py` is transliterated into a list of
`RItem`s: a character class with a `{lo,hi}` quantifier (`+` is `(1, none)`,
`?` is `(0, some 1)`, `{n}` is `(n, some n)`), a literal, an alternation of
literals, or a word-boundary assertion `\b`. -/

inductive RItem where
  | cls (p : Char → Bool) (lo : Nat) (hi : Option Nat)
  | lit (ci : Bool) (t : List Char)
  | alt (ci : Bool) (ts : List (List Char))
  | wb

/-- Does a word boundary `\b` hold between the previous character and the
start of `s`? -/
def wordB (prev : Option Char) (s : List Char) : Bool :=
  let lw := match prev with | none => false | some c => isWordChar c
  let rw := match s with | [] => false | c :: _ => isWordChar c
  lw != rw

/-- Does `s` start with the literal `t` (case-insensitively if `ci`)? -/
def litMatch (ci : Bool) : List Char → List Char → Bool
  | [], _ => true
  | _ :: _, [] => false
  | c :: cs, d :: ds =>
    (if ci then c.toLower == d.toLower else c == d) && litMatch ci cs ds

/-- The greedy (maximal) number of characters a class can consume. -/
def clsMax (p : Char → Bool) (hi : Option Nat) (s : List Char) : Nat :=
  let m := (s.takeWhile p).length
  match hi with
  | none => m
  | some h => min m h

/-- The last character of `chunk`, falling back to `prev` when `chunk` is
empty: the character preceding the rest of the input after consuming
`chunk`. -/
def lastOr (prev : Option Char) (chunk : List Char) : Option Char :=
  match chunk.getLast? with
  | some c => some c
  | none => prev

/-- Backtracking matcher: try to match `items` at the start of `s`
(`prev` is the character just before `s`, for `\b`).  Returns the number
of characters consumed by the first match in Python backtracking order
(greedy quantifiers, alternations left to right).  Structural recursion
on `fuel`; every step consumes one fuel and either removes an item or
turns an alternation into a literal, so `2 * items.length + 2` fuel is
never exhausted (see `runMatch`). -/
def matchFuel : Nat → List RItem → Option Char → List Char → Option Nat
  | 0, _, _, _ => none
  | _ + 1, [], _, _ => some 0
  | fuel + 1, .wb :: rest, prev, s =>
    if wordB prev s then matchFuel fuel rest prev s else none
  | fuel + 1, .lit ci t :: rest, prev, s =>
    if litMatch ci t s then
      (matchFuel fuel rest (lastOr prev (s.take t.length)) (s.drop t.length)).map
        (t.length + ·)
    else none
  | fuel + 1, .alt ci ts :: rest, prev, s =>
    ts.findSome? fun t => matchFuel fuel (.lit ci t :: rest) prev s
  | fuel + 1, .cls p lo hi :: rest, prev, s =>
    (List.range (clsMax p hi s + 1)).findSome? fun i =>
      let k := clsMax p hi s - i
      if k < lo then none
      else (matchFuel fuel rest (lastOr prev (s.take k)) (s.drop k)).map (k + ·)

/-- Match `items` at the start of `s` with sufficient fuel. -/
def runMatch (items : List RItem) (prev : Option Char) (s : List Char) : Option Nat :=
  matchFuel (2 * items.length + 2) items prev s

/-- The `re.search` scan: try every start position left to right; on success
return the matched substring (`match.group()`). -/
def reSearchGo (items : List RItem) : Option Char → List Char → Option (List Char)
  | prev, s =>
    match runMatch items prev s with
    | some n => some (s.take n)
    | none =>
      match s with
      | [] => none
      | c :: cs => reSearchGo items (some c) cs

/-- Python `re.search(pattern, text)`, returning `match.group()`. -/
def reSearch (items : List RItem) (text : List Char) : Option (List Char) :=
  reSearchGo items none text

/-- Truthiness of `re.search(pattern, text)`. -/
def reTest (items : List RItem) (text : List Char) : Bool :=
  (reSearch items text).isSome

/-- The `re.findall` scan: non-overlapping matches left to right; on a match
continue after its end (a zero-width match advances one character without
emitting, which never happens for the patterns used here). -/
def reFindAllGo (items : List RItem) : Nat → Option Char → List Char → List (List Char)
  | 0, _, _ => []
  | fuel + 1, prev, s =>
    match runMatch items prev s with
    | some n =>
      if n = 0 then
        match s with
        | [] => []
        | c :: cs => reFindAllGo items fuel (some c) cs
      else s.take n :: reFindAllGo items fuel (lastOr prev (s.take n)) (s.drop n)
    | none =>
      match s with
      | [] => []
      | c :: cs => reFindAllGo items fuel (some c) cs

/-- Python `re.findall(pattern, text)`. -/
def reFindAll (items : List RItem) (text : List Char) : List (List Char) :=
  reFindAllGo items (text.length + 1) none text

/-! ## Stable descending sort

Python `list.sort(key=..., reverse=True)` and `Counter.most_common` are
stable descending sorts: elements with equal keys keep their original
relative order.  Insertion sort inserting each element before the first
element with a key not larger than its own implements exactly that. -/

/-- Insert `x` into `l`, skipping elements with strictly larger key. -/
def insDesc {α : Type} {β : Type} [LinearOrder β] (key : α → β) (x : α) :
    List α → List α
  | [] => [x]
  | y :: ys => if key x < key y then y :: insDesc key x ys else x :: y :: ys

/-- Stable sort, descending by `key`. -/
def sortDesc {α : Type} {β : Type} [LinearOrder β] (key : α → β) :
    List α → List α
  | [] => []
  | x :: xs => insDesc key x (sortDesc key xs)

/-! ## Counter

`collections.Counter(ws)` iterates `ws` building a dict keyed by first
occurrence; `most_common(n)` sorts items by count descending (stable, so
ties keep first-occurrence order) and takes the first `n`. -/

/-- The distinct elements of a list in order of first occurrence
(`seen` accumulates the elements already emitted). -/
def uniqFirstGo {α : Type} [DecidableEq α] (seen : List α) : List α → List α
  | [] => []
  | x :: xs =>
    if x ∈ seen then uniqFirstGo seen xs else x :: uniqFirstGo (x :: seen) xs

/-- The distinct elements of a list in order of first occurrence. -/
def uniqFirst {α : Type} [DecidableEq α] (l : List α) : List α :=
  uniqFirstGo [] l

/-- Embedding of `Counter(ws).items()` as an association list in insertion order. -/
def counterItems {α : Type} [DecidableEq α] (ws : List α) : List (α × Nat) :=
  (uniqFirst ws).map fun w => (w, ws.count w)

/-- Embedding of `Counter(ws).most_common(n)`. -/
def mostCommon {α : Type} [DecidableEq α] (n : Nat) (ws : List α) : List (α × Nat) :=
  (sortDesc (fun p => p.2) (counterItems ws)).take n

/-! ## The static data of `app.py`

Transcribed verbatim from the source: `JobFieldRecommender.job_fields`
(dict insertion order), `ResumeParser.skills_database` (flattened to
`all_skills` in category and list order), and `ResumeParser.job_keywords`. -/

/-- One extracted keyword with its frequency, the element shape of
the result of `extract_keywords` (a dict with keys `word` and `count`). -/
structure KW where
  word : String
  count : Nat
deriving DecidableEq

/-- The data attached to one job field in `JobFieldRecommender.job_fields`. -/
structure JobFieldData where
  skills : List String
  keywords : List String
  weight : ℚ
deriving DecidableEq

/-- Embedding of the entry of `job_fields` keyed `Software Engineer`. -/
def softwareEngineerField : JobFieldData where
  skills := ["Python", "Java", "JavaScript", "C++", "C#", "Go", "Ruby", "TypeScript",
             "React", "Angular", "Vue.js", "Node.js", "Django", "Flask", "Spring",
             "Git", "Docker", "Kubernetes", "AWS", "Azure", "REST API", "GraphQL"]
  keywords := ["software", "developer", "programming", "coding", "full-stack", "backend",
               "frontend", "api", "microservices", "agile", "scrum"]
  weight := 1

/-- Embedding of `JobFieldRecommender.job_fields`, an insertion-ordered dict in the
source, embedded as an association list in the same order. -/
def job_fields : List (String × JobFieldData) :=
  [("Software Engineer", softwareEngineerField),
   ("Data Scientist",
    { skills := ["Python", "R", "Machine Learning", "Deep Learning", "TensorFlow", "PyTorch",
                 "Scikit-learn", "Pandas", "NumPy", "Matplotlib", "Statistics", "SQL",
                 "Jupyter", "MATLAB", "SAS", "SPSS", "NLP", "Computer Vision"],
      keywords := ["data", "analysis", "machine learning", "ai", "artificial intelligence",
                   "predictive", "modeling", "statistics", "research", "algorithm"],
      weight := 1 }),
   ("Data Engineer",
    { skills := ["Python", "SQL", "Apache Spark", "Hadoop", "Kafka", "Airflow", "ETL",
                 "AWS", "Azure", "GCP", "MongoDB", "PostgreSQL", "Redis", "Elasticsearch",
                 "Docker", "Kubernetes", "Scala", "Java", "Databricks", "Snowflake"],
      keywords := ["data", "pipeline", "etl", "warehouse", "big data", "streaming",
                   "database", "infrastructure", "architect", "integration"],
      weight := 1 }),
   ("DevOps Engineer",
    { skills := ["Docker", "Kubernetes", "Jenkins", "Git", "CI/CD", "Terraform", "Ansible",
                 "AWS", "Azure", "Linux", "Bash", "Python", "Monitoring", "Prometheus",
                 "Grafana", "ELK Stack", "Nginx", "Apache", "Security"],
      keywords := ["devops", "automation", "deployment", "infrastructure", "cloud",
                   "continuous", "integration", "monitoring", "reliability", "sre"],
      weight := 1 }),
   ("Cloud Architect",
    { skills := ["AWS", "Azure", "GCP", "Terraform", "CloudFormation", "Docker", "Kubernetes",
                 "Serverless", "Lambda", "Microservices", "API Gateway", "Load Balancing",
                 "Security", "Networking", "Python", "Java", "Node.js"],
      keywords := ["cloud", "architect", "solution", "infrastructure", "scalability",
                   "migration", "serverless", "saas", "paas", "iaas"],
      weight := 1 }),
   ("Full Stack Developer",
    { skills := ["JavaScript", "React", "Angular", "Vue.js", "Node.js", "HTML5", "CSS3",
                 "Python", "Django", "Flask", "Java", "Spring", "SQL", "MongoDB",
                 "REST API", "GraphQL", "Git", "Docker", "AWS"],
      keywords := ["full-stack", "fullstack", "frontend", "backend", "web", "application",
                   "responsive", "ui", "ux", "api"],
      weight := 1 }),
   ("Mobile Developer",
    { skills := ["Swift", "Kotlin", "React Native", "Flutter", "iOS", "Android", "Java",
                 "Objective-C", "Xcode", "Android Studio", "API", "Firebase", "SQLite"],
      keywords := ["mobile", "ios", "android", "app", "application", "native", "cross-platform"],
      weight := 1 }),
   ("Machine Learning Engineer",
    { skills := ["Python", "TensorFlow", "PyTorch", "Scikit-learn", "MLflow", "Kubeflow",
                 "Deep Learning", "Neural Networks", "Computer Vision", "NLP", "CUDA",
                 "Docker", "Kubernetes", "AWS SageMaker", "Model Deployment"],
      keywords := ["machine learning", "ml", "ai", "deep learning", "neural", "model",
                   "training", "deployment", "mlops", "production"],
      weight := 1 }),
   ("Business Analyst",
    { skills := ["SQL", "Excel", "Tableau", "Power BI", "Python", "R", "Jira", "Confluence",
                 "Agile", "Scrum", "Requirements Analysis", "Data Analysis", "Visio"],
      keywords := ["business", "analyst", "requirements", "stakeholder", "process",
                   "improvement", "strategy", "reporting", "dashboard"],
      weight := 1 }),
   ("QA Engineer",
    { skills := ["Selenium", "Jest", "Cypress", "JUnit", "TestNG", "Postman", "JMeter",
                 "Python", "Java", "JavaScript", "Git", "CI/CD", "Automation Testing"],
      keywords := ["qa", "quality", "testing", "test", "automation", "bug", "defect",
                   "validation", "regression", "performance"],
      weight := 1 })]

/-- Embedding of `ResumeParser.skills_database`, flattened in category order to
`all_skills` exactly as `ResumeParser.__init__` does. -/
def all_skills : List String :=
  -- programming_languages
  ["Python", "JavaScript", "Java", "C++", "C#", "PHP", "Ruby", "Go", "Swift", "Kotlin",
   "TypeScript", "Scala", "R", "MATLAB", "Perl", "Rust", "Dart", "Objective-C", "C",
   "VB.NET", "F#", "Haskell", "Clojure", "Erlang", "Elixir", "Lua", "Shell", "Bash"] ++
  -- web_technologies
  ["React", "Angular", "Vue.js", "Node.js", "Express.js", "Django", "Flask", "Spring",
   "ASP.NET", "Laravel", "Ruby on Rails", "jQuery", "Bootstrap", "Tailwind CSS",
   "HTML5", "CSS3", "SASS", "LESS", "Webpack", "Vite", "Next.js", "Nuxt.js",
   "Svelte", "Ember.js", "Backbone.js", "Redux", "MobX", "GraphQL", "REST API"] ++
  -- databases
  ["MySQL", "PostgreSQL", "MongoDB", "SQLite", "Redis", "Oracle", "SQL Server",
   "Cassandra", "DynamoDB", "Firebase", "Elasticsearch", "Neo4j", "CouchDB",
   "MariaDB", "Amazon RDS", "Google Cloud SQL", "Azure SQL Database"] ++
  -- cloud_platforms
  ["AWS", "Azure", "Google Cloud Platform", "GCP", "Digital Ocean", "Heroku",
   "Vercel", "Netlify", "Firebase", "Supabase", "PlanetScale", "Railway"] ++
  -- devops_tools
  ["Docker", "Kubernetes", "Jenkins", "Git", "GitHub", "GitLab", "Bitbucket",
   "CI/CD", "Terraform", "Ansible", "Chef", "Puppet", "Nginx", "Apache",
   "Linux", "Ubuntu", "CentOS", "RedHat", "Vagrant", "CircleCI", "Travis CI"] ++
  -- data_science_ml
  ["Machine Learning", "Deep Learning", "TensorFlow", "PyTorch", "Scikit-learn",
   "Pandas", "NumPy", "Matplotlib", "Seaborn", "Jupyter", "Tableau", "Power BI",
   "Apache Spark", "Hadoop", "Kafka", "Airflow", "MLflow", "Kubeflow",
   "OpenCV", "NLTK", "spaCy", "Hugging Face", "Computer Vision", "NLP"] ++
  -- soft_skills
  ["Leadership", "Team Management", "Communication", "Problem Solving",
   "Critical Thinking", "Analytical Skills", "Creativity", "Adaptability",
   "Time Management", "Strategic Planning", "Negotiation", "Presentation",
   "Training", "Mentoring", "Customer Service", "Sales", "Marketing"]

/-- Embedding of `ResumeParser.job_keywords`. -/
def job_keywords : List String :=
  ["experienced", "certified", "expert", "specialist", "manager", "developer",
   "engineer", "architect", "analyst", "consultant", "lead", "senior", "junior",
   "professional", "agile", "scrum", "project", "team", "client", "business",
   "technical", "solution", "implementation", "development", "design", "analysis"]

/-! ## JobFieldRecommender -/

/-- Python 3 `round` to an integer: round half to even (the fractional
part decides between the floor and the floor plus one; an exact half goes
to the even neighbour). -/
def pyRound (q : ℚ) : ℤ :=
  if q - ⌊q⌋ < 1 / 2 then ⌊q⌋
  else if 1 / 2 < q - ⌊q⌋ then ⌊q⌋ + 1
  else if ⌊q⌋ % 2 = 0 then ⌊q⌋ else ⌊q⌋ + 1

/-- One loop of `calculate_match_score`: for each element of `fieldL`, add
`points / len(fieldL)` to the running maximum (second component) and, when
the element occurs in `userL`, also to the running score (first component).
The source runs this shape twice, with `points = 60` over the skill list
and `points = 40` over the keyword list, threading `(score, max_score)`. -/
def scoreLoop (points : ℚ) (userL : List String) (fieldL : List String)
    (init : ℚ × ℚ) : ℚ × ℚ :=
  fieldL.foldl
    (fun p s =>
      ((if s ∈ userL then p.1 + points / (fieldL.length : ℚ) else p.1),
       p.2 + points / (fieldL.length : ℚ)))
    init

/-- Embedding of `JobFieldRecommender.calculate_match_score`. -/
def calculate_match_score (user_skills : List String) (user_keywords : List KW)
    (job_field_data : JobFieldData) : ℤ :=
  let user_skills_lower := user_skills.map pyLowerS
  let user_keywords_lower := user_keywords.map fun k => pyLowerS k.word
  let field_skills_lower := job_field_data.skills.map pyLowerS
  let p1 := scoreLoop 60 user_skills_lower field_skills_lower (0, 0)
  let field_keywords_lower := job_field_data.keywords.map pyLowerS
  let p2 := scoreLoop 40 user_keywords_lower field_keywords_lower p1
  let percentage := if p2.2 > 0 then p2.1 / p2.2 * 100 else 0
  min (pyRound percentage) 100

/-- The three search URLs returned by `get_job_search_url`. -/
structure SearchUrls where
  linkedin : String
  indeed : String
  glassdoor : String
deriving DecidableEq

/-- Embedding of `JobFieldRecommender.get_job_search_url`.  The source
replaces every space of the field name with a plus sign; for a
single-character pattern `str.replace` is a per-character map. -/
def get_job_search_url (field_name : String) : SearchUrls :=
  let search_query : String := ⟨field_name.data.map fun c => if c = ' ' then '+' else c⟩
  { linkedin := "https://www.linkedin.com/jobs/search/?keywords=" ++ search_query
    indeed := "https://www.indeed.com/jobs?q=" ++ search_query
    glassdoor := "https://www.glassdoor.com/Job/jobs.htm?sc.keyword=" ++ search_query }

/-- One entry of the result of `get_job_recommendations`. -/
structure FieldMatch where
  field : String
  match_percentage : ℤ
  job_search_url : SearchUrls
deriving DecidableEq

/-- The final (post-bonus) score of one job field inside
`get_job_recommendations`: `calculate_match_score`, then, when a non-empty
`experience_text` contains the field name case-insensitively, `+10` capped
at 100. -/
def fieldFinalScore (skills : List String) (keywords : List KW)
    (experience_text : String) (nd : String × JobFieldData) : ℤ :=
  let match_score := calculate_match_score skills keywords nd.2
  if experience_text ≠ "" then
    if strIn (pyLowerS nd.1).data (pyLowerS experience_text).data then
      min (match_score + 10) 100
    else match_score
  else match_score

/-- The record appended for one job field inside `get_job_recommendations`. -/
def mkFieldMatch (skills : List String) (keywords : List KW)
    (experience_text : String) (nd : String × JobFieldData) : FieldMatch :=
  { field := nd.1
    match_percentage := fieldFinalScore skills keywords experience_text nd
    job_search_url := get_job_search_url nd.1 }

/-- Embedding of `JobFieldRecommender.get_job_recommendations`: build one record per
field in taxonomy order, then `sort(key=..., reverse=True)` — a stable
descending sort on `match_percentage`. -/
def get_job_recommendations (skills : List String) (keywords : List KW)
    (experience_text : String) : List FieldMatch :=
  sortDesc (fun r => r.match_percentage)
    (job_fields.map (mkFieldMatch skills keywords experience_text))

/-! ## ResumeParser: the regex patterns

Each pattern of the source, transliterated item by item. -/

/-- Class `[A-Za-z0-9._%+-]` (email local part). -/
def isEmailLocal (c : Char) : Bool :=
  c.isAlphanum || c = '.' || c = '_' || c = '%' || c = '+' || c = '-'

/-- Class `[A-Za-z0-9.-]` (email domain). -/
def isEmailDomain (c : Char) : Bool :=
  c.isAlphanum || c = '.' || c = '-'

/-- Class `[A-Z|a-z]` (the TLD class of the email pattern; it literally contains
`|`). -/
def isTldChar (c : Char) : Bool :=
  c.isUpper || c.isLower || c = '|'

/-- Pattern `\b[A-Za-z0-9._%+-]+@[A-Za-z0-9.-]+\.[A-Z|a-z]{2,}\b`. -/
def emailItems : List RItem :=
  [.wb, .cls isEmailLocal 1 none, .lit false ['@'], .cls isEmailDomain 1 none,
   .lit false ['.'], .cls isTldChar 2 none, .wb]

/-- Class `[-.\s]` (phone separators). -/
def isPhoneSep (c : Char) : Bool :=
  c = '-' || c = '.' || isPySpace c

/-- Pattern `(\+?1?[-.\s]?)?\(?[0-9]{3}\)?[-.\s]?[0-9]{3}[-.\s]?[0-9]{4}`.
The outer optional group contains only optional single-character items, so
it is flattened: the possibilities and their backtracking order are the
same (the all-absent combination is the last alternative either way). -/
def phone1Items : List RItem :=
  [.cls (· = '+') 0 (some 1), .cls (· = '1') 0 (some 1), .cls isPhoneSep 0 (some 1),
   .cls (· = '(') 0 (some 1), .cls Char.isDigit 3 (some 3), .cls (· = ')') 0 (some 1),
   .cls isPhoneSep 0 (some 1), .cls Char.isDigit 3 (some 3),
   .cls isPhoneSep 0 (some 1), .cls Char.isDigit 4 (some 4)]

/-- Pattern `\b\d{3}[-.]?\d{3}[-.]?\d{4}\b`. -/
def phone2Items : List RItem :=
  [.wb, .cls Char.isDigit 3 (some 3), .cls (fun c => c = '-' || c = '.') 0 (some 1),
   .cls Char.isDigit 3 (some 3), .cls (fun c => c = '-' || c = '.') 0 (some 1),
   .cls Char.isDigit 4 (some 4), .wb]

/-- Pattern `linkedin\.com/in/[\w-]+` with `re.IGNORECASE`. -/
def linkedinItems : List RItem :=
  [.lit true "linkedin.com/in/".data, .cls (fun c => isWordChar c || c = '-') 1 none]

/-- Pattern `\d{3}` (the digit-run test of the name heuristic). -/
def digit3Items : List RItem :=
  [.cls Char.isDigit 3 (some 3)]

/-- Pattern `\b(experience|employment|work history)\b` with `re.IGNORECASE`. -/
def expHdrItems : List RItem :=
  [.wb, .alt true ["experience".data, "employment".data, "work history".data], .wb]

/-- Pattern `\b(education|skills|certifications)\b` with `re.IGNORECASE`. -/
def expStopItems : List RItem :=
  [.wb, .alt true ["education".data, "skills".data, "certifications".data], .wb]

/-- The `\d{4}` branch of the experience boundary pattern
`\b(\d{4}|\w+\s*(Inc|LLC|Corp|Company|Ltd))\b`. -/
def yearItems : List RItem :=
  [.wb, .cls Char.isDigit 4 (some 4), .wb]

/-- The `\w+\s*(Inc|LLC|Corp|Company|Ltd)` branch of the experience
boundary pattern (case-sensitive: the source passes no flag). -/
def companyItems : List RItem :=
  [.wb, .cls isWordChar 1 none, .cls isPySpace 0 none,
   .alt false ["Inc".data, "LLC".data, "Corp".data, "Company".data, "Ltd".data], .wb]

/-- Existence test for `\b(\d{4}|\w+\s*(Inc|LLC|Corp|Company|Ltd))\b`:
a search of an alternation succeeds somewhere iff a search of either
branch (with the surrounding `\b`s distributed) succeeds somewhere. -/
def expBoundaryTest (line : List Char) : Bool :=
  reTest yearItems line || reTest companyItems line

/-- Pattern `\beducation\b` with `re.IGNORECASE`. -/
def eduHdrItems : List RItem :=
  [.wb, .lit true "education".data, .wb]

/-- Pattern `\b(experience|skills|certifications|projects)\b` with `re.IGNORECASE`. -/
def eduStopItems : List RItem :=
  [.wb, .alt true ["experience".data, "skills".data, "certifications".data,
                   "projects".data], .wb]

/-- Pattern `\b(Bachelor|Master|PhD|Ph\.D|MBA|Associate|Diploma)\b` with
`re.IGNORECASE`. -/
def degree1Items : List RItem :=
  [.wb, .alt true ["Bachelor".data, "Master".data, "PhD".data, "Ph.D".data,
                   "MBA".data, "Associate".data, "Diploma".data], .wb]

/-- Pattern `\b(B\.S\.|B\.A\.|M\.S\.|M\.A\.|B\.E\.|B\.Tech|M\.Tech)\b` with
`re.IGNORECASE`. -/
def degree2Items : List RItem :=
  [.wb, .alt true ["B.S.".data, "B.A.".data, "M.S.".data, "M.A.".data,
                   "B.E.".data, "B.Tech".data, "M.Tech".data], .wb]

/-- Pattern `\b<re.escape(skill.lower())>\b` (the per-skill pattern of
`extract_skills`; `re.escape` makes the skill a literal). -/
def skillItems (skill : String) : List RItem :=
  [.wb, .lit false (pyLowerS skill).data, .wb]

/-- Pattern `\b[a-z]+\b` (the tokenizer of `extract_keywords`). -/
def tokenItems : List RItem :=
  [.wb, .cls Char.isLower 1 none, .wb]

/-! ## ResumeParser: the extractors -/

/-- The result of `extract_contact_info`: a dict with optional keys. -/
structure ContactInfo where
  email : Option String
  phone : Option String
  linkedin : Option String
  name : Option String
deriving DecidableEq

/-- The section-header words skipped by the name heuristic. -/
def contactHeaders : List (List Char) :=
  ["objective".data, "summary".data, "experience".data, "education".data]

/-- The name heuristic of `extract_contact_info`, over the first five
non-blank stripped lines: skip lines containing a header word, an `@`, or
a three-digit run; accept the first remaining line with at most four
words, fewer than 50 characters, and an uppercase first character. -/
def findName : List (List Char) → Option String
  | [] => none
  | line :: ls =>
    if contactHeaders.any fun h => strIn h (line.map Char.toLower) then findName ls
    else if '@' ∈ line ∨ reTest digit3Items line = true then findName ls
    else if (splitWS line).length ≤ 4 ∧ line.length < 50 ∧
        (match line with | c :: _ => c.isUpper | [] => false) = true then
      some ⟨line⟩
    else findName ls

/-- Embedding of `ResumeParser.extract_contact_info`. -/
def extract_contact_info (text : String) : ContactInfo :=
  let t := text.data
  let email := (reSearch emailItems t).map fun m => (⟨m⟩ : String)
  let phone :=
    match reSearch phone1Items t with
    | some m => some (⟨m⟩ : String)
    | none => (reSearch phone2Items t).map fun m => (⟨m⟩ : String)
  let linkedin := (reSearch linkedinItems t).map fun m => (⟨m⟩ : String)
  let lines := ((splitNL t).map pyStrip).filter (· ≠ [])
  { email := email, phone := phone, linkedin := linkedin,
    name := findName (lines.take 5) }

/-- Embedding of `ResumeParser.extract_skills`: scan the lowercased text for each
canonical skill with word boundaries, collect matches, deduplicate.
The source deduplicates with `list(set(...))`, whose order CPython leaves
unspecified; the embedding keeps first occurrences (downstream consumers
treat the result as a set). -/
def extract_skills (text : String) : List String :=
  let text_lower := (pyLowerS text).data
  uniqFirst (all_skills.filter fun skill => reTest (skillItems skill) text_lower)

/-- The line scan of `extract_experience`: state is the
`exp_started` flag, the accumulating entry `cur`, and the completed
entries `acc`.  Matches the source line by line: blank lines are skipped;
a section-header line sets the flag and is discarded; a stop-word line
while the flag is on breaks the scan; while the flag is on, a boundary
line (year or company suffix) flushes any accumulating entry and starts a
new one, and other lines extend a non-empty accumulation.  On exit the
in-progress accumulation is flushed. -/
def expLoop : List (List Char) → Bool → List (List Char) → List (List Char) →
    List (List Char)
  | [], _, cur, acc =>
    if cur ≠ [] then acc ++ [List.intercalate [' '] cur] else acc
  | l :: ls, exp_started, cur, acc =>
    let line := pyStrip l
    if line = [] then expLoop ls exp_started cur acc
    else if reTest expHdrItems line then expLoop ls true cur acc
    else if exp_started ∧ reTest expStopItems line = true then
      if cur ≠ [] then acc ++ [List.intercalate [' '] cur] else acc
    else if exp_started then
      if expBoundaryTest line then
        if cur ≠ [] then
          expLoop ls exp_started [line] (acc ++ [List.intercalate [' '] cur])
        else expLoop ls exp_started [line] acc
      else if cur ≠ [] then expLoop ls exp_started (cur ++ [line]) acc
      else expLoop ls exp_started cur acc
    else expLoop ls exp_started cur acc

/-- Embedding of `ResumeParser.extract_experience`. -/
def extract_experience (text : String) : List String :=
  ((expLoop (splitNL text.data) false [] []).map fun e => (⟨e⟩ : String)).take 5

/-- The institution keywords of `extract_education`. -/
def eduKeywords : List (List Char) :=
  ["university".data, "college".data, "institute".data, "school".data, "academy".data]

/-- Does a line match either degree pattern (`any(re.search(p, line,
re.IGNORECASE) for p in degree_patterns)`)? -/
def degreeTest (line : List Char) : Bool :=
  reTest degree1Items line || reTest degree2Items line

/-- The line scan of `extract_education`, mirroring the source: a line is
appended when (the flag is on, or it matches a degree pattern) and (it
contains an institution keyword in lowercase, or matches a degree
pattern). -/
def eduLoop : List (List Char) → Bool → List (List Char) → List (List Char)
  | [], _, acc => acc
  | l :: ls, edu_started, acc =>
    let line := pyStrip l
    if line = [] then eduLoop ls edu_started acc
    else if reTest eduHdrItems line then eduLoop ls true acc
    else if edu_started ∧ reTest eduStopItems line = true then acc
    else if edu_started ∨ degreeTest line = true then
      if eduKeywords.any (fun kw => strIn kw (line.map Char.toLower)) ∨
          degreeTest line = true then
        eduLoop ls edu_started (acc ++ [line])
      else eduLoop ls edu_started acc
    else eduLoop ls edu_started acc

/-- Embedding of `ResumeParser.extract_education`. -/
def extract_education (text : String) : List String :=
  ((eduLoop (splitNL text.data) false []).map fun e => (⟨e⟩ : String)).take 3

/-- Embedding of `ResumeParser.extract_keywords`: tokenize the lowercased text with
`\b[a-z]+\b`, keep tokens that are job keywords longer than three
characters or lowercased canonical skills, count with `Counter`, return
the top 20 as records of the title-cased token and its count. -/
def extract_keywords (text : String) : List KW :=
  let text_lower := (pyLowerS text).data
  let words := reFindAll tokenItems text_lower
  let relevant_words := words.filter fun w =>
    decide ((w ∈ job_keywords.map String.data ∧ 3 < w.length) ∨
      w ∈ all_skills.map fun sk => (pyLowerS sk).data)
  (mostCommon 20 relevant_words).map fun p =>
    { word := (⟨pyTitle p.1⟩ : String), count := p.2 }

/-- The record returned by `parse_resume`. -/
structure ParsedResume where
  contact_info : ContactInfo
  skills : List String
  experience : List String
  education : List String
  keywords : List KW
  raw_text : String
deriving DecidableEq

/-- Embedding of `ResumeParser.parse_resume` from the point where the document text is
available (decoding PDF/DOCX/TXT files into text is I/O outside the core).
Raises `ValueError("Could not extract text from file")` when the text is
blank after stripping; otherwise builds the record, calling the five
extractors directly — the source has no per-extractor exception handling. -/
def parse_resume (text : String) : Except String ParsedResume :=
  if pyStrip text.data = [] then .error "Could not extract text from file"
  else .ok
    { contact_info := extract_contact_info text
      skills := extract_skills text
      experience := extract_experience text
      education := extract_education text
      keywords := extract_keywords text
      raw_text := (⟨text.data.take 1000⟩ : String) }

/-- Variant of `parse_resume` with the five extractor calls abstracted as
exception-transparent (`Except`-valued) functions, mirroring Python
evaluation of the record in the source: the extractors are called in the
key order of the source, and an exception raised by one of them propagates —
there is no `try`/`except` around any of them inside `parse_resume`.
`parse_resume` itself is this composition applied to the five (total)
extractors (`parse_resume_eq_with`). -/
def parse_resume_with (contactF : String → Except String ContactInfo)
    (skillsF : String → Except String (List String))
    (experienceF : String → Except String (List String))
    (educationF : String → Except String (List String))
    (keywordsF : String → Except String (List KW))
    (text : String) : Except String ParsedResume :=
  if pyStrip text.data = [] then .error "Could not extract text from file"
  else do
    let c ← contactF text
    let s ← skillsF text
    let e ← experienceF text
    let ed ← educationF text
    let k ← keywordsF text
    pure { contact_info := c, skills := s, experience := e, education := ed,
           keywords := k, raw_text := (⟨text.data.take 1000⟩ : String) }

/-! ## Lemmas: the stable descending sort -/

theorem mem_insDesc {α β : Type} [LinearOrder β] (key : α → β) (x a : α) :
    ∀ l : List α, a ∈ insDesc key x l ↔ a = x ∨ a ∈ l
  | [] => by simp [insDesc]
  | y :: ys => by
    simp only [insDesc]
    split
    · simp only [List.mem_cons, mem_insDesc key x a ys]
      tauto
    · simp only [List.mem_cons]

theorem perm_insDesc {α β : Type} [LinearOrder β] (key : α → β) (x : α) :
    ∀ l : List α, (insDesc key x l).Perm (x :: l)
  | [] => by simp [insDesc]
  | y :: ys => by
    simp only [insDesc]
    split
    · exact ((perm_insDesc key x ys).cons y).trans (List.Perm.swap x y ys)
    · exact List.Perm.refl _

theorem perm_sortDesc {α β : Type} [LinearOrder β] (key : α → β) :
    ∀ l : List α, (sortDesc key l).Perm l
  | [] => List.Perm.refl _
  | x :: xs =>
    (perm_insDesc key x (sortDesc key xs)).trans ((perm_sortDesc key xs).cons x)

theorem pairwise_insDesc {α β : Type} [LinearOrder β] (key : α → β) (x : α) :
    ∀ l : List α, l.Pairwise (fun a b => key b ≤ key a) →
      (insDesc key x l).Pairwise (fun a b => key b ≤ key a)
  | [], _ => by simp [insDesc]
  | y :: ys, h => by
    simp only [insDesc]
    rcases List.pairwise_cons.mp h with ⟨hy, hys⟩
    split
    · next hlt =>
      refine List.pairwise_cons.mpr ⟨?_, pairwise_insDesc key x ys hys⟩
      intro a ha
      rcases (mem_insDesc key x a ys).mp ha with rfl | ha
      · exact le_of_lt hlt
      · exact hy a ha
    · next hge =>
      refine List.pairwise_cons.mpr ⟨?_, h⟩
      intro a ha
      rcases List.mem_cons.mp ha with rfl | ha
      · exact not_lt.mp hge
      · exact le_trans (hy a ha) (not_lt.mp hge)

theorem pairwise_sortDesc {α β : Type} [LinearOrder β] (key : α → β) :
    ∀ l : List α, (sortDesc key l).Pairwise (fun a b => key b ≤ key a)
  | [] => List.Pairwise.nil
  | x :: xs => pairwise_insDesc key x (sortDesc key xs) (pairwise_sortDesc key xs)

theorem filter_insDesc {α β : Type} [LinearOrder β] (key : α → β) (v : β) (x : α) :
    ∀ l : List α,
      (insDesc key x l).filter (fun z => key z = v) =
        if key x = v then x :: l.filter (fun z => key z = v)
        else l.filter (fun z => key z = v)
  | [] => by
    simp only [insDesc, List.filter]
    split <;> simp_all
  | y :: ys => by
    simp only [insDesc]
    split
    · have hlt : key x < key y := by assumption
      rw [List.filter_cons, filter_insDesc key v x ys, List.filter_cons]
      by_cases hx : key x = v
      · have hy : ¬ key y = v := by
          subst hx
          exact ne_of_gt hlt
        simp [hx, hy]
      · simp [hx]
    · rw [List.filter_cons]
      by_cases hx : key x = v <;> simp [hx, List.filter_cons]

theorem filter_sortDesc {α β : Type} [LinearOrder β] (key : α → β) (v : β) :
    ∀ l : List α,
      (sortDesc key l).filter (fun z => key z = v) = l.filter (fun z => key z = v)
  | [] => rfl
  | x :: xs => by
    rw [sortDesc, filter_insDesc key v x (sortDesc key xs), filter_sortDesc key v xs,
      List.filter_cons]
    split <;> simp_all


/-! ## Lemmas: the score loops -/

/-- A fold adding the constant `c` to the maximum on every element and to
the score on matched elements computes `(count of matches) * c` and
`(length) * c`. -/
theorem foldl_const_add (userL : List String) (c : ℚ) :
    ∀ (l : List String) (p : ℚ × ℚ),
      l.foldl (fun p s => ((if s ∈ userL then p.1 + c else p.1), p.2 + c)) p =
        (p.1 + l.countP (fun s => decide (s ∈ userL)) * c, p.2 + l.length * c)
  | [], p => by simp
  | s :: l, p => by
    rw [List.foldl_cons, foldl_const_add userL c l, List.countP_cons, List.length_cons]
    by_cases hs : s ∈ userL
    · simp only [hs, if_pos, decide_eq_true_eq, if_true]
      simp only [Prod.mk.injEq]
      constructor <;> (push_cast; ring)
    · simp only [hs, if_neg, decide_eq_true_eq, if_false]
      simp only [Prod.mk.injEq]
      constructor <;> (push_cast; ring)

theorem scoreLoop_eq (points : ℚ) (userL fieldL : List String) (init : ℚ × ℚ) :
    scoreLoop points userL fieldL init =
      (init.1 + fieldL.countP (fun s => decide (s ∈ userL)) * (points / fieldL.length),
       init.2 + fieldL.length * (points / fieldL.length)) :=
  foldl_const_add userL (points / fieldL.length) fieldL init

/-- Python 3 `round` of a non-negative number is non-negative. -/
theorem pyRound_nonneg (q : ℚ) (hq : 0 ≤ q) : 0 ≤ pyRound q := by
  have hf : (0 : ℤ) ≤ ⌊q⌋ := Int.floor_nonneg.mpr hq
  unfold pyRound
  split
  · exact hf
  · split
    · omega
    · split <;> omega

/-- The value `round(100)` is `100`. -/
theorem pyRound_hundred : pyRound 100 = 100 := by
  unfold pyRound
  norm_num

/-- The last line of `calculate_match_score`, as a function of the final
`(score, max_score)` pair: when `0 ≤ score ≤ max_score`, the result is in
`[0, 100]`. -/
theorem percentage_clamp_bounds (num den : ℚ) (h0 : 0 ≤ num) :
    0 ≤ min (pyRound (if den > 0 then num / den * 100 else 0)) 100 ∧
      min (pyRound (if den > 0 then num / den * 100 else 0)) 100 ≤ 100 := by
  refine ⟨le_min ?_ (by norm_num), min_le_right _ _⟩
  apply pyRound_nonneg
  split
  · next hpos => positivity
  · exact le_refl 0

/-- The score `calculate_match_score` always lands in `[0, 100]`, for every input
skill list, keyword list and field data (the pre-bonus core of C1, and the
defined-score guarantee of C4). -/
theorem calculate_match_score_bounds (u : List String) (k : List KW)
    (d : JobFieldData) :
    0 ≤ calculate_match_score u k d ∧ calculate_match_score u k d ≤ 100 := by
  simp only [calculate_match_score]
  rw [scoreLoop_eq, scoreLoop_eq]
  set cnts : ℚ := ((d.skills.map pyLowerS).countP
    (fun s => decide (s ∈ u.map pyLowerS)) : ℚ) with hcnts
  set cntk : ℚ := ((d.keywords.map pyLowerS).countP
    (fun s => decide (s ∈ k.map fun x => pyLowerS x.word)) : ℚ) with hcntk
  set cs : ℚ := 60 / ((d.skills.map pyLowerS).length : ℚ) with hcs
  set ck : ℚ := 40 / ((d.keywords.map pyLowerS).length : ℚ) with hck
  have hcs0 : 0 ≤ cs := by rw [hcs]; positivity
  have hck0 : 0 ≤ ck := by rw [hck]; positivity
  have hcnts0 : 0 ≤ cnts := by rw [hcnts]; positivity
  have hcntk0 : 0 ≤ cntk := by rw [hcntk]; positivity
  have hls : cnts ≤ ((d.skills.map pyLowerS).length : ℚ) := by
    rw [hcnts]
    exact_mod_cast List.countP_le_length _
  have hlk : cntk ≤ ((d.keywords.map pyLowerS).length : ℚ) := by
    rw [hcntk]
    exact_mod_cast List.countP_le_length _
  apply percentage_clamp_bounds
  simp only
  positivity

/-- When every field skill and every field keyword is matched and both
lists are non-empty, `calculate_match_score` is exactly `100`. -/
theorem calculate_match_score_full (u : List String) (k : List KW)
    (d : JobFieldData) (hs0 : d.skills ≠ []) (hk0 : d.keywords ≠ [])
    (hs : ∀ s ∈ d.skills.map pyLowerS, s ∈ u.map pyLowerS)
    (hk : ∀ w ∈ d.keywords.map pyLowerS, w ∈ k.map fun x => pyLowerS x.word) :
    calculate_match_score u k d = 100 := by
  simp only [calculate_match_score]
  rw [scoreLoop_eq, scoreLoop_eq]
  have hcs : ((d.skills.map pyLowerS).countP
      (fun s => decide (s ∈ u.map pyLowerS)) : ℚ) = ((d.skills.map pyLowerS).length : ℚ) := by
    rw [List.countP_eq_length.mpr (by simpa using hs)]
  have hck : ((d.keywords.map pyLowerS).countP
      (fun s => decide (s ∈ k.map fun x => pyLowerS x.word)) : ℚ) =
      ((d.keywords.map pyLowerS).length : ℚ) := by
    rw [List.countP_eq_length.mpr (by simpa using hk)]
  have hlens : ((d.skills.map pyLowerS).length : ℚ) ≠ 0 := by
    simp only [List.length_map, ne_eq, Nat.cast_eq_zero, List.length_eq_zero]
    exact hs0
  have hlenk : ((d.keywords.map pyLowerS).length : ℚ) ≠ 0 := by
    simp only [List.length_map, ne_eq, Nat.cast_eq_zero, List.length_eq_zero]
    exact hk0
  simp only [hcs, hck, zero_add]
  rw [mul_div_cancel₀ 60 hlens, mul_div_cancel₀ 40 hlenk]
  norm_num [pyRound_hundred]

/-- The post-bonus score of a field is in `[0, 100]`: the bonus branch
adds 10 and clamps at 100, the other branches return the raw score. -/
theorem fieldFinalScore_bounds (skills : List String) (keywords : List KW)
    (experience_text : String) (nd : String × JobFieldData) :
    0 ≤ fieldFinalScore skills keywords experience_text nd ∧
      fieldFinalScore skills keywords experience_text nd ≤ 100 := by
  obtain ⟨h0, h1⟩ := calculate_match_score_bounds skills keywords nd.2
  unfold fieldFinalScore
  split
  · split
    · exact ⟨le_min (by omega) (by norm_num), min_le_right _ _⟩
    · exact ⟨h0, h1⟩
  · exact ⟨h0, h1⟩

/-- C1: for every input skill list, keyword list and experience text, every
match percentage produced by the recommender — after rounding, after the
optional `+10` experience bonus, and after clamping — is an integer in
`[0, 100]`. -/
theorem C1_score_in_range (skills : List String) (keywords : List KW)
    (experience_text : String) :
    (get_job_recommendations skills keywords experience_text).all
      (fun r => decide (0 ≤ r.match_percentage) && decide (r.match_percentage ≤ 100)) =
      true := by
  rw [List.all_eq_true]
  intro r hr
  rw [get_job_recommendations] at hr
  have hpre : r ∈ job_fields.map (mkFieldMatch skills keywords experience_text) :=
    (perm_sortDesc (fun x : FieldMatch => x.match_percentage) _).subset hr
  rcases List.mem_map.mp hpre with ⟨nd, _, rfl⟩
  obtain ⟨h0, h1⟩ := fieldFinalScore_bounds skills keywords experience_text nd
  simp only [mkFieldMatch, Bool.and_eq_true, decide_eq_true_eq]
  exact ⟨h0, h1⟩

/-- C6: the recommender returns exactly one record per taxonomy field (the
field names of the result are a permutation of those of the taxonomy, which are
pairwise distinct), sorted by match percentage in descending order, and —
by stability of the sort — the records holding any fixed score value `v`
appear exactly in taxonomy order. -/
theorem C6_ranking_complete_sorted_stable (skills : List String) (keywords : List KW)
    (experience_text : String) :
    ((get_job_recommendations skills keywords experience_text).map
        FieldMatch.field).Perm (job_fields.map Prod.fst) ∧
    (job_fields.map Prod.fst).Nodup ∧
    (get_job_recommendations skills keywords experience_text).Pairwise
      (fun a b => b.match_percentage ≤ a.match_percentage) ∧
    ∀ v : ℤ,
      ((get_job_recommendations skills keywords experience_text).filter
          (fun r => r.match_percentage = v)).map FieldMatch.field =
        (job_fields.filter
          (fun nd => fieldFinalScore skills keywords experience_text nd = v)).map
          Prod.fst := by
  refine ⟨?_, by decide, pairwise_sortDesc _ _, ?_⟩
  · have h := (perm_sortDesc (fun r : FieldMatch => r.match_percentage)
      (job_fields.map (mkFieldMatch skills keywords experience_text))).map FieldMatch.field
    rw [List.map_map] at h
    exact h.trans (List.Perm.refl _)
  · intro v
    show ((sortDesc (fun r : FieldMatch => r.match_percentage) _).filter _).map _ = _
    rw [filter_sortDesc, List.filter_map, List.map_map]
    rfl

/-- Every taxonomy field defines at least one skill and one keyword. -/
theorem job_fields_nonempty :
    ∀ nd ∈ job_fields, nd.2.skills ≠ [] ∧ nd.2.keywords ≠ [] := by decide

/-- C4: when the skill list (or keyword list) of a field is empty, the
corresponding loop of the score computation runs zero iterations, so that
half contributes `0` to both the score and the maximum (the per-iteration
division by the list length is never evaluated), and the computation still
returns a defined score in `[0, 100]` rather than failing. -/
theorem C4_empty_half_skipped (u : List String) (k : List KW) (jfd : JobFieldData)
    (_h : jfd.skills = [] ∨ jfd.keywords = []) :
    (jfd.skills = [] →
      ∀ init : ℚ × ℚ, scoreLoop 60 (u.map pyLowerS) (jfd.skills.map pyLowerS) init = init) ∧
    (jfd.keywords = [] →
      ∀ init : ℚ × ℚ,
        scoreLoop 40 (k.map fun x => pyLowerS x.word) (jfd.keywords.map pyLowerS) init =
          init) ∧
    0 ≤ calculate_match_score u k jfd ∧ calculate_match_score u k jfd ≤ 100 := by
  refine ⟨?_, ?_, calculate_match_score_bounds u k jfd⟩
  · intro hs init
    rw [hs]
    rfl
  · intro hk init
    rw [hk]
    rfl

/-- C4 witness: a field with no skills at all still gets a defined score. -/
theorem C4_empty_half_skipped_witness :
    (({ skills := [], keywords := ["data"], weight := 1 } : JobFieldData).skills = [] ∨
      ({ skills := [], keywords := ["data"], weight := 1 } : JobFieldData).keywords = []) ∧
    (0 ≤ calculate_match_score [] []
        { skills := [], keywords := ["data"], weight := 1 } ∧
      calculate_match_score [] [] { skills := [], keywords := ["data"], weight := 1 } ≤
        100) :=
  ⟨Or.inl rfl,
   (C4_empty_half_skipped [] [] { skills := [], keywords := ["data"], weight := 1 }
     (Or.inl rfl)).2.2⟩

/-- C7: for every taxonomy field, if the candidate skills contain
(case-insensitively) every required skill of the field and the candidate
keyword words contain (case-insensitively) every keyword of the field,
the match score before any experience bonus is exactly 100. -/
theorem C7_full_match_100 (u : List String) (k : List KW)
    (nd : String × JobFieldData) (hmem : nd ∈ job_fields)
    (hs : ∀ s ∈ nd.2.skills, pyLowerS s ∈ u.map pyLowerS)
    (hk : ∀ w ∈ nd.2.keywords, pyLowerS w ∈ k.map fun x => pyLowerS x.word) :
    calculate_match_score u k nd.2 = 100 := by
  obtain ⟨hs0, hk0⟩ := job_fields_nonempty nd hmem
  refine calculate_match_score_full u k nd.2 hs0 hk0 ?_ ?_
  · intro s hsm
    rcases List.mem_map.mp hsm with ⟨x, hx, rfl⟩
    exact hs x hx
  · intro w hwm
    rcases List.mem_map.mp hwm with ⟨x, hx, rfl⟩
    exact hk x hx

/-- C7 witness: a candidate holding exactly the Software Engineer skill
and keyword lists scores 100 on the Software Engineer field. -/
theorem C7_full_match_100_witness :
    calculate_match_score softwareEngineerField.skills
      (softwareEngineerField.keywords.map fun w => { word := w, count := 1 })
      softwareEngineerField = 100 :=
  C7_full_match_100 softwareEngineerField.skills
    (softwareEngineerField.keywords.map fun w => { word := w, count := 1 })
    ("Software Engineer", softwareEngineerField) (List.Mem.head _)
    (by decide) (by decide)

/-- The floor of `100/11` is `9`. -/
theorem floor_hundred_elevenths : ⌊(100 : ℚ) / 11⌋ = 9 := by
  rw [Int.floor_eq_iff]
  norm_num

/-- The value `round(100/11)` is `9`. -/
theorem pyRound_hundred_elevenths : pyRound (100 / 11) = 9 := by
  unfold pyRound
  rw [floor_hundred_elevenths]
  norm_num

/-- C8 counterexample: the Software Engineer field defines 22 skills, not
21 as the claim states (so the skill-half share is `60/22`, not `60/21`). -/
theorem C8_se_skill_count_cex :
    softwareEngineerField.skills.length = 22 ∧
      softwareEngineerField.skills.length ≠ 21 := by decide

/-- C8 (amended): with skill set `{"Python", "Docker"}` and keyword words
containing `"developer"`, the Software Engineer field (22 skills, 11
keywords) gets a skill half of `2 * (60/22) ≈ 5.45`, a keyword half of
`40/11 ≈ 3.64`, and a rounded pre-bonus total of exactly `9`. -/
theorem C8_amended_scenario :
    softwareEngineerField.skills.length = 22 ∧
    softwareEngineerField.keywords.length = 11 ∧
    scoreLoop 60 (["Python", "Docker"].map pyLowerS)
        (softwareEngineerField.skills.map pyLowerS) (0, 0) =
      (2 * (60 / 22), 60) ∧
    scoreLoop 40 (([{ word := "Developer", count := 3 }] : List KW).map
          fun x => pyLowerS x.word)
        (softwareEngineerField.keywords.map pyLowerS) (2 * (60 / 22), 60) =
      (2 * (60 / 22) + 40 / 11, 100) ∧
    calculate_match_score ["Python", "Docker"]
      [{ word := "Developer", count := 3 }] softwareEngineerField = 9 := by
  have hcnts : (softwareEngineerField.skills.map pyLowerS).countP
      (fun s => decide (s ∈ ["Python", "Docker"].map pyLowerS)) = 2 := by decide
  have hcntk : (softwareEngineerField.keywords.map pyLowerS).countP
      (fun s => decide (s ∈ ([{ word := "Developer", count := 3 }] : List KW).map
        fun x => pyLowerS x.word)) = 1 := by decide
  have hlens : (softwareEngineerField.skills.map pyLowerS).length = 22 := by decide
  have hlenk : (softwareEngineerField.keywords.map pyLowerS).length = 11 := by decide
  refine ⟨by decide, by decide, ?_, ?_, ?_⟩
  · rw [scoreLoop_eq, hcnts, hlens]
    norm_num
  · rw [scoreLoop_eq, hcntk, hlenk]
    norm_num
  · simp only [calculate_match_score]
    rw [scoreLoop_eq, scoreLoop_eq, hcnts, hcntk, hlens, hlenk]
    norm_num
    rw [pyRound_hundred_elevenths]
    decide

/-- C2: for every input text that is non-blank after stripping,
`parse_resume` succeeds and returns a record with at most 5 experience
entries, at most 3 education entries and at most 20 keyword entries. -/
theorem C2_parse_bounds (text : String) (h : pyStrip text.data ≠ []) :
    ∃ r, parse_resume text = Except.ok r ∧ r.experience.length ≤ 5 ∧
      r.education.length ≤ 3 ∧ r.keywords.length ≤ 20 := by
  refine ⟨{ contact_info := extract_contact_info text
            skills := extract_skills text
            experience := extract_experience text
            education := extract_education text
            keywords := extract_keywords text
            raw_text := (⟨text.data.take 1000⟩ : String) }, ?_, ?_, ?_, ?_⟩
  · unfold parse_resume
    rw [if_neg h]
  · show (List.take 5 _).length ≤ 5
    exact List.length_take_le 5 _
  · show (List.take 3 _).length ≤ 3
    exact List.length_take_le 3 _
  · show ((mostCommon 20 _).map _).length ≤ 20
    rw [List.length_map]
    exact List.length_take_le 20 _

/-- C2 witness at the concrete text `"hello"`. -/
theorem C2_parse_bounds_witness :
    pyStrip "hello".data ≠ [] ∧
      ∃ r, parse_resume "hello" = Except.ok r ∧ r.experience.length ≤ 5 ∧
        r.education.length ≤ 3 ∧ r.keywords.length ≤ 20 :=
  ⟨by decide, C2_parse_bounds "hello" (by decide)⟩

/-- C3: on text that is blank after stripping, `parse_resume` raises the
empty-document `ValueError` before any extractor runs — the embedded
result is the error alone, with no partial record. -/
theorem C3_empty_input_error (text : String) (h : pyStrip text.data = []) :
    parse_resume text = Except.error "Could not extract text from file" := by
  unfold parse_resume
  rw [if_pos h]

/-- C3 witness at the empty string. -/
theorem C3_empty_input_error_witness :
    pyStrip "".data = [] ∧
      parse_resume "" = Except.error "Could not extract text from file" :=
  ⟨by decide, C3_empty_input_error "" (by decide)⟩

/-- The function `parse_resume` is exactly the unguarded composition
`parse_resume_with` applied to the five (total) extractors. -/
theorem parse_resume_eq_with (text : String) :
    parse_resume text =
      parse_resume_with (fun t => Except.ok (extract_contact_info t))
        (fun t => Except.ok (extract_skills t))
        (fun t => Except.ok (extract_experience t))
        (fun t => Except.ok (extract_education t))
        (fun t => Except.ok (extract_keywords t)) text := by
  unfold parse_resume parse_resume_with
  split
  · rfl
  · rfl

/-- C5 counterexample: `parse_resume` has no per-extractor exception
handling, so an exception raised inside a sub-extractor (here: the
experience extractor failing on the non-blank input `"hello"`) propagates
out of the entry point instead of being caught with that sub-result
defaulting to empty. -/
theorem C5_exception_propagates_cex :
    parse_resume_with (fun t => Except.ok (extract_contact_info t))
      (fun t => Except.ok (extract_skills t))
      (fun _ => Except.error "boom")
      (fun t => Except.ok (extract_education t))
      (fun t => Except.ok (extract_keywords t)) "hello" =
      Except.error "boom" := rfl

/-- C5 (amended): `parse_resume` contains no per-extractor handler — a
sub-extractor exception would propagate out of it — but every sub-extractor
of the shipped code is total, so on every non-blank input all five run and
`parse_resume` returns exactly their five results. -/
theorem C5_amended_total_extractors (text : String) (h : pyStrip text.data ≠ []) :
    parse_resume text = Except.ok
      { contact_info := extract_contact_info text
        skills := extract_skills text
        experience := extract_experience text
        education := extract_education text
        keywords := extract_keywords text
        raw_text := (⟨text.data.take 1000⟩ : String) } := by
  unfold parse_resume
  rw [if_neg h]

/-- C5 witness at the concrete text `"hello"`. -/
theorem C5_amended_total_extractors_witness :
    pyStrip "hello".data ≠ [] ∧
      parse_resume "hello" = Except.ok
        { contact_info := extract_contact_info "hello"
          skills := extract_skills "hello"
          experience := extract_experience "hello"
          education := extract_education "hello"
          keywords := extract_keywords "hello"
          raw_text := (⟨"hello".data.take 1000⟩ : String) } :=
  ⟨by decide, C5_amended_total_extractors "hello" (by decide)⟩

/-- C9: on the scenario text, the experience extractor returns exactly one
entry — the boundary line joined with its continuation line by a space —
and scanning stops at the education line, so the final line is excluded. -/
theorem C9_experience_scenario :
    extract_experience
        "Work History\nSoftware Engineer at Acme Inc 2019-2021\nBuilt backend services\nEducation\nBS Computer Science" =
      ["Software Engineer at Acme Inc 2019-2021 Built backend services"] := by
  decide

/-! ## Lemmas: ASCII case mapping and title case -/

/-- An ASCII lowercase letter has code in `[97, 122]`. -/
theorem toNat_range_of_isLower (c : Char) (h : c.isLower = true) :
    97 ≤ c.toNat ∧ c.toNat ≤ 122 := by
  simpa only [Char.isLower, Bool.and_eq_true, decide_eq_true_eq, ge_iff_le] using h

/-- Mapping `Char.toUpper` of an ASCII lowercase letter is a letter. -/
theorem toUpper_isAlpha (c : Char) (h : c.isLower = true) :
    c.toUpper.isAlpha = true := by
  obtain ⟨h97, h122⟩ := toNat_range_of_isLower c h
  have hv : (c.toNat - 32).isValidChar := Or.inl (by omega)
  have htu : c.toUpper = Char.ofNat (c.toNat - 32) := by
    simp only [Char.toUpper]
    rw [if_pos ⟨h97, h122⟩]
  have htn : (Char.ofNat (c.toNat - 32)).toNat = c.toNat - 32 := by
    rw [Char.ofNat, dif_pos hv]
    simp [Char.ofNatAux, Char.toNat, UInt32.toNat]
  have h65 : 65 ≤ (Char.ofNat (c.toNat - 32)).toNat := by rw [htn]; omega
  have h90 : (Char.ofNat (c.toNat - 32)).toNat ≤ 90 := by rw [htn]; omega
  have hup : (Char.ofNat (c.toNat - 32)).isUpper = true := by
    simp only [Char.isUpper, Bool.and_eq_true, decide_eq_true_eq, ge_iff_le]
    exact ⟨h65, h90⟩
  rw [htu]
  simp [Char.isAlpha, hup]

/-- Mapping `Char.toLower` fixes an ASCII lowercase letter. -/
theorem toLower_of_isLower (c : Char) (h : c.isLower = true) : c.toLower = c := by
  obtain ⟨h97, _⟩ := toNat_range_of_isLower c h
  simp only [Char.toLower]
  rw [if_neg]
  intro hc
  omega

/-- A lowercase letter is a letter. -/
theorem isAlpha_of_isLower (c : Char) (h : c.isLower = true) : c.isAlpha = true := by
  simp [Char.isAlpha, h]

/-- Applying `str.title()` to an all-lowercase-letter word consists of letters. -/
theorem pyTitleGo_all_isAlpha :
    ∀ (t : List Char) (b : Bool), t.all Char.isLower = true →
      (pyTitleGo b t).all Char.isAlpha = true
  | [], _, _ => rfl
  | c :: cs, b, h => by
    rw [List.all_cons, Bool.and_eq_true] at h
    obtain ⟨hc, hcs⟩ := h
    rw [pyTitleGo, List.all_cons, Bool.and_eq_true]
    refine ⟨?_, pyTitleGo_all_isAlpha cs c.isAlpha hcs⟩
    rw [if_pos (isAlpha_of_isLower c hc)]
    cases b
    · simp only [Bool.false_eq_true, if_false]
      exact toUpper_isAlpha c hc
    · simp only [if_true]
      rw [toLower_of_isLower c hc]
      exact isAlpha_of_isLower c hc

/-! ## Lemmas: the tokenizer only produces lowercase-letter runs -/

/-- A prefix shorter than the satisfying prefix satisfies the class. -/
theorem take_all_of_le_takeWhile (p : Char → Bool) :
    ∀ (s : List Char) (k : Nat), k ≤ (s.takeWhile p).length →
      (s.take k).all p = true
  | _, 0, _ => by simp
  | [], k + 1, h => by simp at h
  | c :: cs, k + 1, h => by
    rw [List.takeWhile_cons] at h
    cases hp : p c with
    | false => rw [hp] at h; simp at h
    | true =>
      rw [hp] at h
      simp only [if_true, List.length_cons, Nat.add_le_add_iff_right] at h
      rw [List.take_succ_cons, List.all_cons, Bool.and_eq_true]
      exact ⟨hp, take_all_of_le_takeWhile p cs k h⟩

/-- A match of the single item `\b` consumes nothing. -/
theorem matchFuel_wb_eq_zero :
    ∀ (f : Nat) (prev : Option Char) (s : List Char) (n : Nat),
      matchFuel f [.wb] prev s = some n → n = 0
  | 0, _, _, _, h => by simp [matchFuel] at h
  | f + 1, prev, s, n, h => by
    simp only [matchFuel] at h
    split at h
    · cases f with
      | zero => simp [matchFuel] at h
      | succ f =>
        simp only [matchFuel, Option.some.injEq] at h
        omega
    · exact absurd h (by simp)

/-- A match of `[a-z]+\b` consumes at most the maximal lowercase run. -/
theorem matchFuel_cls_wb_le :
    ∀ (f : Nat) (prev : Option Char) (s : List Char) (n : Nat),
      matchFuel f [.cls Char.isLower 1 none, .wb] prev s = some n →
        n ≤ (s.takeWhile Char.isLower).length
  | 0, _, _, _, h => by simp [matchFuel] at h
  | f + 1, prev, s, n, h => by
    simp only [matchFuel] at h
    obtain ⟨i, hi, hbody⟩ := List.exists_of_findSome?_eq_some h
    split at hbody
    · exact absurd hbody (by simp)
    · rw [Option.map_eq_some'] at hbody
      obtain ⟨a, ha, hn⟩ := hbody
      have ha0 := matchFuel_wb_eq_zero f _ _ a ha
      subst ha0
      subst hn
      simp only [clsMax] at *
      omega

/-- Every match of the token pattern `\b[a-z]+\b` is a run of lowercase
letters. -/
theorem matchFuel_token_all :
    ∀ (f : Nat) (prev : Option Char) (s : List Char) (n : Nat),
      matchFuel f tokenItems prev s = some n → (s.take n).all Char.isLower = true
  | 0, _, _, _, h => by simp [tokenItems, matchFuel] at h
  | f + 1, prev, s, n, h => by
    simp only [tokenItems, matchFuel] at h
    split at h
    · exact take_all_of_le_takeWhile Char.isLower s n (matchFuel_cls_wb_le f prev s n h)
    · exact absurd h (by simp)

/-- Every token produced by the `\b[a-z]+\b` scan of `extract_keywords` is
a run of lowercase letters. -/
theorem reFindAllGo_token_all :
    ∀ (fuel : Nat) (prev : Option Char) (s : List Char) (m : List Char),
      m ∈ reFindAllGo tokenItems fuel prev s → m.all Char.isLower = true
  | 0, _, _, _, h => by simp [reFindAllGo] at h
  | fuel + 1, prev, s, m, h => by
    cases hrun : runMatch tokenItems prev s with
    | some n =>
      simp only [reFindAllGo, hrun] at h
      by_cases hn : n = 0
      · rw [if_pos hn] at h
        cases s with
        | nil => simp at h
        | cons c cs => exact reFindAllGo_token_all fuel (some c) cs m h
      · rw [if_neg hn] at h
        rcases List.mem_cons.mp h with rfl | h
        · exact matchFuel_token_all _ prev s n hrun
        · exact reFindAllGo_token_all fuel _ _ m h
    | none =>
      simp only [reFindAllGo, hrun] at h
      cases s with
      | nil => simp at h
      | cons c cs => exact reFindAllGo_token_all fuel (some c) cs m h

/-- The first-occurrence deduplication only returns elements of the list. -/
theorem uniqFirstGo_subset {α : Type} [DecidableEq α] :
    ∀ (seen l : List α) (x : α), x ∈ uniqFirstGo seen l → x ∈ l
  | _, [], x, h => by simp [uniqFirstGo] at h
  | seen, y :: ys, x, h => by
    rw [uniqFirstGo] at h
    split at h
    · exact List.mem_cons_of_mem y (uniqFirstGo_subset seen ys x h)
    · rcases List.mem_cons.mp h with rfl | h
      · exact List.mem_cons_self x ys
      · exact List.mem_cons_of_mem y (uniqFirstGo_subset _ ys x h)

/-- Every entry of `most_common(n)` is an entry of the counter. -/
theorem mostCommon_subset {α : Type} [DecidableEq α] (n : Nat) (ws : List α)
    (p : α × Nat) (h : p ∈ mostCommon n ws) : p ∈ counterItems ws :=
  (perm_sortDesc (fun q : α × Nat => q.2) (counterItems ws)).subset
    (List.take_subset n _ h)

/-- Every word in the result of `extract_keywords` is the title-cased form of
one token produced by the `\b[a-z]+\b` scan. -/
theorem extract_keywords_word_shape (text : String) (e : KW)
    (he : e ∈ extract_keywords text) :
    ∃ w, w ∈ reFindAll tokenItems (pyLowerS text).data ∧
      w.all Char.isLower = true ∧ e.word.data = pyTitle w := by
  simp only [extract_keywords] at he
  rcases List.mem_map.mp he with ⟨p, hp, rfl⟩
  have hpc := mostCommon_subset 20 _ p hp
  rcases List.mem_map.mp hpc with ⟨w, hw, rfl⟩
  have hwrel := uniqFirstGo_subset [] _ w hw
  have hwtok := List.mem_of_mem_filter hwrel
  exact ⟨w, hwtok, reFindAllGo_token_all _ _ _ w hwtok, rfl⟩

/-- C10: every word in the keyword-frequency output is the Title-cased
form of a single purely-alphabetic (lowercase-letter) token, hence consists
of letters only; in particular the canonical skill names containing
spaces, digits or punctuation can never appear as keyword entries. -/
theorem C10_keywords_alphabetic (text : String) (e : KW)
    (he : e ∈ extract_keywords text) :
    (∃ w, w ∈ reFindAll tokenItems (pyLowerS text).data ∧
      w.all Char.isLower = true ∧ e.word.data = pyTitle w) ∧
    e.word.data.all Char.isAlpha = true ∧
    e.word ≠ "Machine Learning" ∧ e.word ≠ "C++" ∧ e.word ≠ "Node.js" ∧
    e.word ≠ "HTML5" := by
  obtain ⟨w, hwtok, hlow, hdata⟩ := extract_keywords_word_shape text e he
  have halpha : e.word.data.all Char.isAlpha = true := by
    rw [hdata]
    exact pyTitleGo_all_isAlpha w false hlow
  refine ⟨⟨w, hwtok, hlow, hdata⟩, halpha, ?_, ?_, ?_, ?_⟩
  · intro heq
    rw [heq] at halpha
    exact absurd halpha (by decide)
  · intro heq
    rw [heq] at halpha
    exact absurd halpha (by decide)
  · intro heq
    rw [heq] at halpha
    exact absurd halpha (by decide)
  · intro heq
    rw [heq] at halpha
    exact absurd halpha (by decide)

/-- C10 witness: on a concrete text, the entry `("Developer", 2)` is in the
output and the theorem applies to it. -/
theorem C10_keywords_alphabetic_witness :
    ({ word := "Developer", count := 2 } : KW) ∈
      extract_keywords "developer developer python" ∧
    (({ word := "Developer", count := 2 } : KW).word.data.all Char.isAlpha = true ∧
      ({ word := "Developer", count := 2 } : KW).word ≠ "Machine Learning") :=
  ⟨by decide,
   ⟨(C10_keywords_alphabetic "developer developer python"
       { word := "Developer", count := 2 } (by decide)).2.1,
    (C10_keywords_alphabetic "developer developer python"
       { word := "Developer", count := 2 } (by decide)).2.2.1⟩⟩
